import Mathlib

/-!
Verification development for the bucketed embedding-and-projection layer
(`thinc/neural/_classes/embed.py`).

The layer's arrays are shallowly embedded as lists of exact numbers
(`Mat := List (List ℤ)`); integer IDs are `Int` and Python's `%` on a
positive modulus is Lean's `Int.emod` (both return a remainder in
`[0, modulus)`).  The array backend (`thinc.neural.ops`) is not part of
the sources; its two operations used here, `batch_dot` and `batch_outer`,
are modelled from the spec.  NumPy primitive behaviours that the layer
relies on (fancy-indexed `+=`, `flatten`, integer-dtype checking on array
indices) are embedded with their documented semantics.
-/

set_option autoImplicit false

namespace ThincEmbed

/-- A matrix as a list of rows of integers, the shallow embedding of a
2-D NumPy array. -/
abbrev Mat : Type := List (List ℤ)

/-- Dot product of two rows (truncating to the shorter, as both always
have equal length for well-shaped arrays). -/
def dotRow (x y : List ℤ) : ℤ :=
  (List.zipWith (fun a b => a * b) x y).sum

/-- Elementwise sum of two rows. -/
def rowAdd (x y : List ℤ) : List ℤ :=
  List.zipWith (fun a b => a + b) x y

/-- Elementwise difference of two rows. -/
def rowSub (x y : List ℤ) : List ℤ :=
  List.zipWith (fun a b => a - b) x y

/-- Elementwise sum of two matrices (the embedding of `A += B` on
equally-shaped arrays). -/
def matAdd (A B : Mat) : Mat :=
  List.zipWith rowAdd A B

/-- Elementwise difference of two matrices. -/
def matSub (A B : Mat) : Mat :=
  List.zipWith rowSub A B

/-- Column `j` of a matrix (rows of a NumPy array are rectangular, so the
default `0` is never hit on well-shaped input). -/
def col (A : Mat) (j : Nat) : List ℤ :=
  A.map (fun row => row.getD j 0)

/-- Number of columns, read off the first row. -/
def rowLen (A : Mat) : Nat :=
  (A.headD []).length

/-- Transpose of a rectangular matrix, used for `self.W.T`. -/
def transposeM (A : Mat) : Mat :=
  (List.range (rowLen A)).map (fun j => col A j)

/-- Modelled from the spec: `ops.batch_dot(X, Y)` of the array backend
(`thinc.neural.ops`, not among the sources) — "for each row, project the
looked-up vector through `W`": row `b` of the result is row `b` of `X`
dotted with each row of `Y`, i.e. `X @ Y.T`. -/
def batchDot (X Y : Mat) : Mat :=
  X.map (fun xrow => Y.map (fun yrow => dotRow xrow yrow))

/-- Modelled from the spec: `ops.batch_outer(G, V)` of the array backend
(not among the sources) — "outer product summed over the batch": entry
`(o, m)` is the sum over batch rows `b` of `G[b][o] * V[b][m]`. -/
def batchOuter (G V : Mat) : Mat :=
  (List.range (rowLen G)).map (fun o =>
    (List.range (rowLen V)).map (fun m => dotRow (col G o) (col V m)))

/-- The mutable state of one `Embed` layer once its tensors exist:
`nV` buckets, the projection `W : nO × nM`, the table
`vectors : nV × nM`, and the gradient accumulators. -/
structure EmbedState : Type where
  nV : Nat
  is_static : Bool
  W : Mat
  vectors : Mat
  d_W : Mat
  d_vectors : Mat
deriving DecidableEq, Repr

/-- `Embed._embed(ids)`: `self.vectors[ids % self.nV]` — each ID is
reduced mod `nV` (Python `%`, hence nonnegative for positive `nV`) and
the corresponding row of the table is gathered.  The `getD` default is
never hit when `vectors` has `nV` rows. -/
def embedRows (st : EmbedState) (ids : List Int) : Mat :=
  ids.map (fun i => st.vectors.getD ((i % (st.nV : Int)).toNat) [])

/-- `Embed.predict(ids)`: gather the bucketed rows, then
`ops.batch_dot(vectors, self.W)`. -/
def predict (st : EmbedState) (ids : List Int) : Mat :=
  batchDot (embedRows st ids) st.W

/-- The forward half of `Embed.begin_update(ids, drop=0.)`: identical to
`predict`; the dropout line in the source is commented out, so `drop` is
accepted and ignored. -/
def beginUpdateOutput (st : EmbedState) (ids : List Int) (drop : ℚ) : Mat :=
  batchDot (embedRows st ids) st.W

/-- The backward scatter's per-row lookup: for target row `r`, the row of
`G` paired with the LAST index `i` such that `idx[i] = r`, or `none` if
`r` never occurs in `idx`.  NumPy element assignment with a repeated
fancy index writes the positions in order, so the last write wins. -/
def lastHit (idx : List Nat) (G : Mat) (r : Nat) : Option (List ℤ) :=
  (List.zip idx G).foldl (fun acc p => if p.1 = r then some p.2 else acc) none

/-- Row `r` after the fancy-indexed scatter: the old row, plus — when `r`
is hit at all — the gradient row of the last position that hit it. -/
def scatterRow (dv : Mat) (idx : List Nat) (G : Mat) (r : Nat) : List ℤ :=
  match lastHit idx G r with
  | some grow => rowAdd (dv.getD r []) grow
  | none => dv.getD r []

/-- The embedding of `d_vectors[idx] += G` on a NumPy array: fancy-indexed
in-place addition gathers `d_vectors[idx]`, adds `G` into the gathered
buffer, and scatters the buffer back, so a row hit by several indices
receives only the contribution of the last one (it is NOT accumulated;
that would need `np.add.at`). -/
def npFancyAddAssign (dv : Mat) (idx : List Nat) (G : Mat) : Mat :=
  (List.range dv.length).map (scatterRow dv idx G)

/-- The `finish_update(gradients, sgd=None)` closure from
`Embed.begin_update`, without the optimizer callback (`sgd=None` case).
`vecs` is the closure's captured `vectors = self._embed(ids)`.
The source:
`self.d_W += self.ops.batch_outer(gradients, vectors)`; then, when the
layer is not static, `gradients = self.ops.batch_dot(gradients, self.W.T)`
and `d_vectors[ids % self.nV] += gradients`. -/
def finishUpdate (st : EmbedState) (ids : List Int) (vecs : Mat)
    (gradients : Mat) : EmbedState :=
  let dW1 := matAdd st.d_W (batchOuter gradients vecs)
  if st.is_static then
    { st with d_W := dW1 }
  else
    let grad2 := batchDot gradients (transposeM st.W)
    let idx := ids.map (fun i => (i % (st.nV : Int)).toNat)
    { st with d_W := dW1, d_vectors := npFancyAddAssign st.d_vectors idx grad2 }

/-- Flatten a matrix row-major, the embedding of NumPy `.flatten()`
(which always returns a fresh copy, never a view). -/
def flat (A : Mat) : List ℤ :=
  A.flatten

/-- Cut a flat buffer back into rows of the given lengths. -/
def takeRows : List Nat → List ℤ → Mat
  | [], _ => []
  | n :: ns, buf => buf.take n :: takeRows ns (buf.drop n)

/-- Reshape a flat buffer to the shape of a template matrix. -/
def unflattenLike (template : Mat) (buf : List ℤ) : Mat :=
  takeRows (template.map List.length) buf

/-- Modelled from the spec: the layer's parameter store `self._mem`
(the `Model` base class, not among the sources) exposes one contiguous
flat weight buffer holding every parameter of the layer — here `W`
followed by `vectors`. -/
def memWeights (st : EmbedState) : List ℤ :=
  flat st.W ++ flat st.vectors

/-- Modelled from the spec: the store's matching flat gradient buffer,
`d_W` followed by `d_vectors`. -/
def memGradient (st : EmbedState) : List ℤ :=
  flat st.d_W ++ flat st.d_vectors

/-- `finish_update` with an optimizer callback.  The callback is a
function from the two buffers it is handed to the contents it leaves in
them (its in-place mutation).  Static layer:
`sgd(self.W.flatten(), self.d_W.flatten(), key=...)` — `.flatten()`
copies, so whatever the callback writes into those buffers is dropped on
the floor and the layer's stored tensors keep their values.  Non-static:
`sgd(self._mem.weights, self._mem.gradient, key=...)` — these are the
store's live buffers, so the callback's writes land in the layer. -/
def finishUpdateSgd (st : EmbedState) (ids : List Int) (vecs : Mat)
    (gradients : Mat)
    (sgd : Option (List ℤ → List ℤ → List ℤ × List ℤ)) : EmbedState :=
  let st1 := finishUpdate st ids vecs gradients
  match sgd with
  | none => st1
  | some f =>
    if st1.is_static then
      let _ := f (flat st1.W) (flat st1.d_W)
      st1
    else
      let res := f (memWeights st1) (memGradient st1)
      let k := (flat st1.W).length
      { st1 with
        W := unflattenLike st1.W (res.1.take k)
        vectors := unflattenLike st1.vectors (res.1.drop k)
        d_W := unflattenLike st1.d_W (res.2.take k)
        d_vectors := unflattenLike st1.d_vectors (res.2.drop k) }

/-- Repeated backward passes from the same `begin_update` closure: fold
`finish_update` over a list of upstream gradient batches (no optimizer
callback). -/
def finishUpdateIter (st : EmbedState) (ids : List Int) (vecs : Mat)
    (gs : List Mat) : EmbedState :=
  gs.foldl (fun s g => finishUpdate s ids vecs g) st

/-- The layer's dimension/allocation state before the tensors exist, as
seen by the `describe.on_data` hooks: `nV` and `nM` may still be unset,
and each governed tensor is either allocated or not. -/
structure DimModel : Type where
  nV : Option Int
  nM : Option Int
  WAllocated : Bool
  vectorsAllocated : Bool
deriving DecidableEq, Repr

/-- Maximum of a nonempty batch of IDs, `int(X.max())`. -/
def listMax (x : Int) (xs : List Int) : Int :=
  xs.foldl max x

/-- `_set_dimensions_if_needed(model, X)`: if `model.nV` is unset, compute
`max_id = int(X.max()) + 1`; raise `ValueError` when `max_id >= 10000000`,
else set `model.nV = max_id`.  Returned as (post-state, raised error):
on the error path the model object is untouched (the raise precedes the
assignment); `X.max()` on an empty array is itself a NumPy error. -/
def setDimensionsIfNeeded (m : DimModel) (X : List Int) :
    DimModel × Option String :=
  match m.nV with
  | some _ => (m, none)
  | none =>
    match X with
    | [] => (m, some "zero-size array to reduction operation maximum")
    | x :: xs =>
      let maxId := listMax x xs + 1
      if 10000000 ≤ maxId then
        (m, some "TODO error --- really want us to make 1m vectors?")
      else
        ({ m with nV := some maxId }, none)

/-- Modelled from the spec: the declarative descriptor wiring allocates a
governed tensor the moment all dimensions in its shape rule are resolved
— `W : (nO, nM)` needs `nM` (`nO` is always set at construction),
`vectors : (nV, nM)` needs `nV` and `nM`. -/
def allocateIfReady (m : DimModel) : DimModel :=
  { m with
    WAllocated := m.WAllocated || m.nM.isSome
    vectorsAllocated := m.vectorsAllocated || (m.nV.isSome && m.nM.isSome) }

/-- Modelled from the spec: the `describe.on_data` wiring runs dimension
inference before allocation, so a raise from `_set_dimensions_if_needed`
propagates before any tensor is allocated. -/
def onDataPhase (m : DimModel) (X : List Int) : DimModel × Option String :=
  match setDimensionsIfNeeded m X with
  | (m1, some e) => (m1, some e)
  | (m1, none) => (allocateIfReady m1, none)

/-- A Python scalar inside an ID batch: an integer, or something else
(float, string, …).  NumPy converts the batch to an array whose dtype is
integral exactly when every element is an integer. -/
inductive PyNum : Type where
  | pint : Int → PyNum
  | pother : PyNum
deriving DecidableEq, Repr

/-- Whether a batch element is an integer. -/
def PyNum.isInt : PyNum → Bool
  | .pint _ => true
  | .pother => false

/-- The embedding of `vectors[ids % nV]` when `ids` may hold non-integer
contents: NumPy refuses to index with a non-integer-dtype array
(`IndexError: arrays used as indices must be of integer type`), raised by
the indexing machinery before any table row is gathered.  With an
all-integer batch this is `_embed` as usual. -/
def npIndexRowsChecked (vectors : Mat) (nV : Nat) (ids : List PyNum) :
    Except String Mat :=
  if ids.all PyNum.isInt then
    Except.ok (ids.map (fun v =>
      match v with
      | .pint i => vectors.getD ((i % (nV : Int)).toNat) []
      | .pother => []))
  else
    Except.error "IndexError: arrays used as indices must be of integer type"

/-- `Embed.predict` over a possibly malformed ID batch: the bucketed
gather (with NumPy's dtype check), then the projection. -/
def predictChecked (vectors W : Mat) (nV : Nat) (ids : List PyNum) :
    Except String Mat :=
  match npIndexRowsChecked vectors nV ids with
  | Except.ok vecs => Except.ok (batchDot vecs W)
  | Except.error e => Except.error e

/-- The forward pass of `Embed.begin_update` over a possibly malformed ID
batch: the same two lines as `predict` (`drop` ignored). -/
def beginUpdateOutputChecked (vectors W : Mat) (nV : Nat) (ids : List PyNum)
    (drop : ℚ) : Except String Mat :=
  match npIndexRowsChecked vectors nV ids with
  | Except.ok vecs => Except.ok (batchDot vecs W)
  | Except.error e => Except.error e

/-- The weight buffer visible to the scoped block inside
`Embed.use_params(params)`: for a non-static layer whose store identity
is a key of `params`, the block runs against the swapped-in alternate
buffer (`weights[:] = param`); otherwise against the original. -/
def useParamsInScope (is_static keyInParams : Bool)
    (param weights0 : List ℤ) : List ℤ :=
  if is_static then weights0
  else if keyInParams then param
  else weights0

/-- `Embed.use_params(params)` run to completion, returning (final weight
buffer, whether an exception escaped).  The source is a
`@contextlib.contextmanager` generator with a bare `yield` and NO
try/finally: when the scoped block raises, `__exit__` throws the
exception into the generator at the `yield`, the generator propagates it,
and the restore line `weights[:] = backup` after the `yield` is skipped —
the swapped-in buffer stays in place.  On normal exit the backup (a copy
of the pre-scope buffer) is written back.  `blockRaises` says whether the
caller's scoped block raises; the block itself does not write the weight
buffer. -/
def useParamsRun (is_static keyInParams : Bool) (param weights0 : List ℤ)
    (blockRaises : Bool) : List ℤ × Bool :=
  if is_static then (weights0, blockRaises)
  else if keyInParams then
    if blockRaises then (param, true)
    else (weights0, false)
  else (weights0, blockRaises)

/-- Claim C1 (code bug): the claim requires the weights to be restored
after the scope exits even when the scoped block raises; the source's
context manager has no try/finally around its `yield`, so on the
exception path the restore is skipped.  Concretely: non-static layer,
store identity in `params`, pre-scope weights `[0]`, alternate buffer
`[1]`, block raises — the weights end as `[1]` (still the swapped-in
alternate buffer), not the pre-scope `[0]`. -/
theorem use_params_exception_path_keeps_swapped_weights :
    useParamsRun false true [1] [0] true = ([1], true) ∧
    useParamsInScope false true [1] [0] = [1] ∧
    ([(1 : ℤ)] ≠ [(0 : ℤ)]) := by
  refine ⟨rfl, rfl, ?_⟩
  decide

/-- Claim C2 (code bug): with `nV = 2`, `ids = [0, 2]` (rows 0 and 1 share
bucket 0), `W = [[1]]` and upstream gradients `[[1], [1]]`, the
propagated per-row gradients are `[[1], [1]]`; the claim (and the spec)
require the shared row of `d_vectors` to be incremented by their sum, 2,
but the fancy-indexed `+=` in the source writes only the last duplicate's
contribution: the row ends at 1. -/
theorem finish_update_duplicate_ids_last_write_wins :
    (finishUpdate ⟨2, false, [[1]], [[0], [0]], [[0]], [[0], [0]]⟩
        [0, 2] [[0], [0]] [[1], [1]]).d_vectors = [[1], [0]] ∧
    ([[(1 : ℤ)], [0]] ≠ [[(2 : ℤ)], [0]]) := by
  refine ⟨by decide, by decide⟩

/-- Claim C9: `begin_update`'s output component is computed by the same
two lines as `predict`, and the `drop` argument never enters the
computation. -/
theorem begin_update_output_ignores_drop_eq_predict
    (st : EmbedState) (ids : List Int) (drop : ℚ) :
    beginUpdateOutput st ids drop = predict st ids := rfl

/-- Claim C3: with `nV` unset, one call on a nonempty batch with maximum
`m` where `m + 1` is below the cap sets `nV = m + 1`; afterwards every
further call, on any batch whatsoever, returns the model unchanged with
no error. -/
theorem set_dimensions_infers_then_idempotent
    (m : DimModel) (x : Int) (xs : List Int)
    (h0 : m.nV = none) (hcap : listMax x xs + 1 < 10000000) :
    setDimensionsIfNeeded m (x :: xs)
      = ({ m with nV := some (listMax x xs + 1) }, none) ∧
    ∀ Y : List Int,
      setDimensionsIfNeeded { m with nV := some (listMax x xs + 1) } Y
        = ({ m with nV := some (listMax x xs + 1) }, none) := by
  constructor
  · simp only [setDimensionsIfNeeded, h0]
    rw [if_neg (not_le.mpr hcap)]
  · intro Y
    simp only [setDimensionsIfNeeded]

/-- Witness for C3 at a concrete unconfigured model and the batch
`[4, 2, 7]` (maximum 7, so `nV` becomes 8). -/
theorem set_dimensions_infers_then_idempotent_witness :
    ((⟨none, some 3, false, false⟩ : DimModel).nV = none ∧
      listMax 4 [2, 7] + 1 < 10000000) ∧
    setDimensionsIfNeeded ⟨none, some 3, false, false⟩ [4, 2, 7]
      = ({ (⟨none, some 3, false, false⟩ : DimModel) with
            nV := some (listMax 4 [2, 7] + 1) }, none) ∧
    setDimensionsIfNeeded
        { (⟨none, some 3, false, false⟩ : DimModel) with
            nV := some (listMax 4 [2, 7] + 1) } []
      = ({ (⟨none, some 3, false, false⟩ : DimModel) with
            nV := some (listMax 4 [2, 7] + 1) }, none) := by
  have h := set_dimensions_infers_then_idempotent
    ⟨none, some 3, false, false⟩ 4 [2, 7] rfl (by decide)
  exact ⟨⟨rfl, by decide⟩, h.1, h.2 []⟩

/-- Claim C4: with `nV` unset and no tensor allocated, a nonempty batch
whose maximum plus one reaches the 10,000,000 cap makes the on-data phase
raise the configuration error with the model untouched: `nV` still unset,
`W` and `vectors` still unallocated. -/
theorem cap_error_leaves_state_unchanged
    (m : DimModel) (x : Int) (xs : List Int)
    (h0 : m.nV = none) (hW : m.WAllocated = false)
    (hv : m.vectorsAllocated = false)
    (hcap : 10000000 ≤ listMax x xs + 1) :
    onDataPhase m (x :: xs)
      = (m, some "TODO error --- really want us to make 1m vectors?") ∧
    (onDataPhase m (x :: xs)).1.nV = none ∧
    (onDataPhase m (x :: xs)).1.WAllocated = false ∧
    (onDataPhase m (x :: xs)).1.vectorsAllocated = false := by
  have h1 : setDimensionsIfNeeded m (x :: xs)
      = (m, some "TODO error --- really want us to make 1m vectors?") := by
    simp only [setDimensionsIfNeeded, h0]
    rw [if_pos hcap]
  have h2 : onDataPhase m (x :: xs)
      = (m, some "TODO error --- really want us to make 1m vectors?") := by
    simp only [onDataPhase, h1]
  exact ⟨h2, by rw [h2]; exact h0, by rw [h2]; exact hW, by rw [h2]; exact hv⟩

/-- Witness for C4 at a concrete unconfigured model and the batch
`[9999999]` (`max + 1 = 10,000,000`, exactly at the cap). -/
theorem cap_error_leaves_state_unchanged_witness :
    ((⟨none, some 3, false, false⟩ : DimModel).nV = none ∧
      (⟨none, some 3, false, false⟩ : DimModel).WAllocated = false ∧
      (⟨none, some 3, false, false⟩ : DimModel).vectorsAllocated = false ∧
      10000000 ≤ listMax 9999999 [] + 1) ∧
    onDataPhase ⟨none, some 3, false, false⟩ [9999999]
      = (⟨none, some 3, false, false⟩,
         some "TODO error --- really want us to make 1m vectors?") := by
  have h := cap_error_leaves_state_unchanged
    ⟨none, some 3, false, false⟩ 9999999 [] rfl rfl rfl (by decide)
  exact ⟨⟨rfl, rfl, rfl, by decide⟩, h.1⟩

/-- Claim C8: a batch with non-integer contents makes both `predict` and
the forward pass of `begin_update` fail with the index-dtype error, and
the error is produced before any table lookup: the result is the same
error whatever the table contents or bucket count are. -/
theorem predict_rejects_noninteger_batch
    (ids : List PyNum) (h : ids.all PyNum.isInt = false)
    (vectors vectors2 W : Mat) (nV nV2 : Nat) (drop : ℚ) :
    predictChecked vectors W nV ids
      = Except.error "IndexError: arrays used as indices must be of integer type" ∧
    beginUpdateOutputChecked vectors W nV ids drop
      = Except.error "IndexError: arrays used as indices must be of integer type" ∧
    predictChecked vectors W nV ids = predictChecked vectors2 W nV2 ids := by
  have hidx : ∀ (v : Mat) (n : Nat), npIndexRowsChecked v n ids
      = Except.error "IndexError: arrays used as indices must be of integer type" := by
    intro v n
    simp only [npIndexRowsChecked, h]
    rfl
  refine ⟨?_, ?_, ?_⟩
  · simp only [predictChecked, hidx]
  · simp only [beginUpdateOutputChecked, hidx]
  · simp only [predictChecked, hidx]

/-- Witness for C8 at the batch `[pint 0, pother]` against two different
tables. -/
theorem predict_rejects_noninteger_batch_witness :
    ([PyNum.pint 0, PyNum.pother].all PyNum.isInt = false) ∧
    predictChecked [[1], [2]] [[1]] 2 [PyNum.pint 0, PyNum.pother]
      = Except.error "IndexError: arrays used as indices must be of integer type" ∧
    beginUpdateOutputChecked [[1], [2]] [[1]] 2 [PyNum.pint 0, PyNum.pother] (1 / 2)
      = Except.error "IndexError: arrays used as indices must be of integer type" ∧
    predictChecked [[1], [2]] [[1]] 2 [PyNum.pint 0, PyNum.pother]
      = predictChecked [[5], [6], [7]] [[1]] 3 [PyNum.pint 0, PyNum.pother] := by
  have h := predict_rejects_noninteger_batch [PyNum.pint 0, PyNum.pother]
    (by decide) [[1], [2]] [[5], [6], [7]] [[1]] 2 3 (1 / 2)
  exact ⟨by decide, h.1, h.2.1, h.2.2⟩

/-- Claim C10: for a static layer the optimizer callback is handed
`.flatten()` copies of `W` and `d_W`, so the resulting layer state does
not depend on the callback at all: it equals the state of a call without
a callback, `W` is untouched, and `d_W` holds exactly the pre-call value
plus this call's batched outer product. -/
theorem static_sgd_receives_flatten_copies
    (st : EmbedState) (hs : st.is_static = true)
    (ids : List Int) (vecs gradients : Mat)
    (f : List ℤ → List ℤ → List ℤ × List ℤ) :
    finishUpdateSgd st ids vecs gradients (some f)
      = finishUpdateSgd st ids vecs gradients none ∧
    (finishUpdateSgd st ids vecs gradients (some f)).W = st.W ∧
    (finishUpdateSgd st ids vecs gradients (some f)).d_W
      = matAdd st.d_W (batchOuter gradients vecs) := by
  have hup : finishUpdate st ids vecs gradients
      = { st with d_W := matAdd st.d_W (batchOuter gradients vecs) } := by
    simp only [finishUpdate, hs, if_true]
  refine ⟨?_, ?_, ?_⟩ <;>
    simp only [finishUpdateSgd, hup, hs, if_true]

/-- Witness for C10 at a concrete static layer and a callback that
overwrites both buffers it is handed. -/
theorem static_sgd_receives_flatten_copies_witness :
    ((⟨2, true, [[1]], [[3], [4]], [[0]], [[0], [0]]⟩ : EmbedState).is_static
      = true) ∧
    finishUpdateSgd ⟨2, true, [[1]], [[3], [4]], [[0]], [[0], [0]]⟩
        [0, 1] [[3], [4]] [[1], [1]]
        (some (fun a b => (a.map (fun x => x + 100), b.map (fun x => x + 100))))
      = finishUpdateSgd ⟨2, true, [[1]], [[3], [4]], [[0]], [[0], [0]]⟩
          [0, 1] [[3], [4]] [[1], [1]] none := by
  have h := static_sgd_receives_flatten_copies
    ⟨2, true, [[1]], [[3], [4]], [[0]], [[0], [0]]⟩ rfl
    [0, 1] [[3], [4]] [[1], [1]]
    (fun a b => (a.map (fun x => x + 100), b.map (fun x => x + 100)))
  exact ⟨rfl, h.1⟩

/-- Claim C5: with a positive bucket count and a table of `nV` rows,
`_embed` on any integer ID — of any sign or magnitude — selects exactly
row `i mod nV` of the table, an in-bounds row, and two IDs with equal
residues mod `nV` select the identical row. -/
theorem embed_bucketing_in_bounds_and_collision
    (st : EmbedState) (hpos : 0 < st.nV) (hlen : st.vectors.length = st.nV) :
    (∀ i : Int, ∃ hlt : (i % (st.nV : Int)).toNat < st.vectors.length,
      embedRows st [i] = [st.vectors.get ⟨(i % (st.nV : Int)).toNat, hlt⟩]) ∧
    (∀ i1 i2 : Int, i1 % (st.nV : Int) = i2 % (st.nV : Int) →
      embedRows st [i1] = embedRows st [i2]) := by
  have hne : (st.nV : Int) ≠ 0 := by
    exact_mod_cast Nat.pos_iff_ne_zero.mp hpos
  constructor
  · intro i
    have h0 : 0 ≤ i % (st.nV : Int) := Int.emod_nonneg i hne
    have h1 : i % (st.nV : Int) < (st.nV : Int) :=
      Int.emod_lt_of_pos i (by exact_mod_cast hpos)
    have hlt : (i % (st.nV : Int)).toNat < st.vectors.length := by
      rw [hlen]; omega
    refine ⟨hlt, ?_⟩
    simp only [embedRows, List.map_cons, List.map_nil]
    rw [List.getD_eq_getElem st.vectors [] hlt]
    rfl
  · intro i1 i2 heq
    simp only [embedRows, List.map_cons, List.map_nil, heq]

/-- Witness for C5 at `nV = 2`, a two-row table, and the colliding IDs
`-3` and `5` (both in bucket 1). -/
theorem embed_bucketing_witness :
    (0 < (⟨2, false, [[1]], [[3], [4]], [[0]], [[0], [0]]⟩ : EmbedState).nV ∧
     (⟨2, false, [[1]], [[3], [4]], [[0]], [[0], [0]]⟩ : EmbedState).vectors.length
       = (⟨2, false, [[1]], [[3], [4]], [[0]], [[0], [0]]⟩ : EmbedState).nV) ∧
    ((-3 : Int) % ((2 : Nat) : Int) = (5 : Int) % ((2 : Nat) : Int)) ∧
    embedRows ⟨2, false, [[1]], [[3], [4]], [[0]], [[0], [0]]⟩ [-3]
      = embedRows ⟨2, false, [[1]], [[3], [4]], [[0]], [[0], [0]]⟩ [5] := by
  have h := embed_bucketing_in_bounds_and_collision
    ⟨2, false, [[1]], [[3], [4]], [[0]], [[0], [0]]⟩ (by decide) rfl
  exact ⟨⟨by decide, by decide⟩, by decide, h.2 (-3) 5 (by decide)⟩

/-- Helper: rowwise, after adding `b` in twice the difference from the
start is one `b` more than after adding it in once. -/
theorem rowSub_rowAdd_twice (a b : List ℤ) :
    rowSub (rowAdd (rowAdd a b) b) a
      = rowAdd (rowSub (rowAdd a b) a) (rowSub (rowAdd a b) a) := by
  induction a generalizing b with
  | nil => simp [rowAdd, rowSub]
  | cons x a ih =>
    cases b with
    | nil => simp [rowAdd, rowSub]
    | cons y b =>
      simp only [rowAdd, rowSub, List.zipWith_cons_cons, List.cons.injEq]
      exact ⟨by ring, ih b⟩

/-- Helper: a row's difference from itself is absorbed by addition (it is
a row of zeros). -/
theorem rowSub_self_idem (a : List ℤ) :
    rowAdd (rowSub a a) (rowSub a a) = rowSub a a := by
  induction a with
  | nil => rfl
  | cons x a ih =>
    simp only [rowAdd, rowSub, List.zipWith_cons_cons, List.cons.injEq]
    exact ⟨by ring, ih⟩

/-- Helper: matrix form of `rowSub_rowAdd_twice`. -/
theorem matSub_matAdd_twice (A B : Mat) :
    matSub (matAdd (matAdd A B) B) A
      = matAdd (matSub (matAdd A B) A) (matSub (matAdd A B) A) := by
  induction A generalizing B with
  | nil => rfl
  | cons a A ih =>
    cases B with
    | nil => rfl
    | cons b B =>
      simp only [matAdd, matSub, List.zipWith_cons_cons, List.cons.injEq]
      exact ⟨rowSub_rowAdd_twice a b, ih B⟩

/-- Helper: matrix form of `rowSub_self_idem`. -/
theorem matSub_self_idem (A : Mat) :
    matAdd (matSub A A) (matSub A A) = matSub A A := by
  induction A with
  | nil => rfl
  | cons a A ih =>
    simp only [matAdd, matSub, List.zipWith_cons_cons, List.cons.injEq]
    exact ⟨rowSub_self_idem a, ih⟩

/-- The fancy-indexed scatter preserves the number of rows. -/
theorem npFancy_length (dv : Mat) (idx : List Nat) (G : Mat) :
    (npFancyAddAssign dv idx G).length = dv.length := by
  simp [npFancyAddAssign]

/-- `getD` through a map over `List.range`. -/
theorem getD_range_map (n r : Nat) (f : Nat → List ℤ) (h : r < n) :
    (((List.range n).map f).getD r []) = f r := by
  have hlen : r < ((List.range n).map f).length := by simpa using h
  rw [List.getD_eq_getElem _ _ hlen]
  simp

/-- Row `r` of the scatter result, read back with `getD`. -/
theorem npFancy_getD (dv : Mat) (idx : List Nat) (G : Mat) (r : Nat)
    (h : r < dv.length) :
    (npFancyAddAssign dv idx G).getD r [] = scatterRow dv idx G r :=
  getD_range_map dv.length r (scatterRow dv idx G) h

/-- Scattering the same gradient twice doubles the per-row delta, even
though each single scatter applies only the last duplicate's row. -/
theorem npFancy_twice_delta (dv : Mat) (idx : List Nat) (G : Mat) :
    matSub (npFancyAddAssign (npFancyAddAssign dv idx G) idx G) dv
      = matAdd (matSub (npFancyAddAssign dv idx G) dv)
               (matSub (npFancyAddAssign dv idx G) dv) := by
  have len1 : (npFancyAddAssign dv idx G).length = dv.length :=
    npFancy_length dv idx G
  apply List.ext_getElem
  · simp [matSub, matAdd, npFancy_length, len1]
  · intro r h1 h2
    have hr : r < dv.length := by
      simp [matSub, npFancy_length, len1] at h1
      omega
    have hdv : dv.getD r [] = dv[r] := List.getD_eq_getElem dv [] hr
    simp only [matSub, matAdd, List.getElem_zipWith]
    simp only [npFancyAddAssign, List.getElem_map, List.getElem_range]
    show rowSub (scatterRow (npFancyAddAssign dv idx G) idx G r) dv[r]
        = rowAdd (rowSub (scatterRow dv idx G r) dv[r])
                 (rowSub (scatterRow dv idx G r) dv[r])
    simp only [scatterRow, npFancy_getD dv idx G r hr]
    cases hcase : lastHit idx G r with
    | some grow =>
      simp only [hcase, scatterRow, hdv]
      exact rowSub_rowAdd_twice dv[r] grow
    | none =>
      simp only [hcase, scatterRow, hdv]
      exact (rowSub_self_idem dv[r]).symm

/-- Claim C6: with `is_static = True`, any sequence of `finish_update`
calls leaves `d_vectors` exactly as it was, while `d_W` receives the
batched-outer-product accumulation of every call in order. -/
theorem static_layer_freezes_d_vectors
    (st : EmbedState) (hs : st.is_static = true)
    (ids : List Int) (vecs : Mat) (gs : List Mat) :
    (finishUpdateIter st ids vecs gs).d_vectors = st.d_vectors ∧
    (finishUpdateIter st ids vecs gs).d_W
      = gs.foldl (fun A g => matAdd A (batchOuter g vecs)) st.d_W := by
  induction gs generalizing st with
  | nil => exact ⟨rfl, rfl⟩
  | cons g gs ih =>
    have hstep : finishUpdate st ids vecs g
        = { st with d_W := matAdd st.d_W (batchOuter g vecs) } := by
      simp only [finishUpdate, hs, if_true]
    have h2 := ih { st with d_W := matAdd st.d_W (batchOuter g vecs) } hs
    simp only [finishUpdateIter, List.foldl_cons] at h2 ⊢
    rw [hstep]
    exact h2

/-- Witness for C6 at a concrete static layer and two backward passes
with different gradients. -/
theorem static_layer_freezes_d_vectors_witness :
    ((⟨2, true, [[1]], [[3], [4]], [[0]], [[0], [0]]⟩ : EmbedState).is_static
      = true) ∧
    (finishUpdateIter ⟨2, true, [[1]], [[3], [4]], [[0]], [[0], [0]]⟩ [0, 1]
        [[3], [4]] [[[1], [1]], [[2], [2]]]).d_vectors
      = (⟨2, true, [[1]], [[3], [4]], [[0]], [[0], [0]]⟩ :
          EmbedState).d_vectors ∧
    (finishUpdateIter ⟨2, true, [[1]], [[3], [4]], [[0]], [[0], [0]]⟩ [0, 1]
        [[3], [4]] [[[1], [1]], [[2], [2]]]).d_W
      = [[[1], [1]], [[2], [2]]].foldl
          (fun A g => matAdd A (batchOuter g [[3], [4]]))
          (⟨2, true, [[1]], [[3], [4]], [[0]], [[0], [0]]⟩ : EmbedState).d_W := by
  have h := static_layer_freezes_d_vectors
    ⟨2, true, [[1]], [[3], [4]], [[0]], [[0], [0]]⟩ rfl [0, 1] [[3], [4]]
    [[[1], [1]], [[2], [2]]]
  exact ⟨rfl, h.1, h.2⟩

/-- Claim C7: calling `finish_update` twice with the same batch and the
same upstream gradients makes the cumulative change of `d_W` and of
`d_vectors` relative to their pre-call values exactly twice the change of
a single call — they are additive accumulators (this holds for static and
non-static layers alike, and the `d_vectors` part holds even though a
single scatter under-counts duplicate buckets). -/
theorem finish_update_twice_doubles_deltas
    (st : EmbedState) (ids : List Int) (vecs gradients : Mat) :
    matSub (finishUpdate (finishUpdate st ids vecs gradients) ids vecs
        gradients).d_W st.d_W
      = matAdd (matSub (finishUpdate st ids vecs gradients).d_W st.d_W)
               (matSub (finishUpdate st ids vecs gradients).d_W st.d_W) ∧
    matSub (finishUpdate (finishUpdate st ids vecs gradients) ids vecs
        gradients).d_vectors st.d_vectors
      = matAdd (matSub (finishUpdate st ids vecs gradients).d_vectors
                 st.d_vectors)
               (matSub (finishUpdate st ids vecs gradients).d_vectors
                 st.d_vectors) := by
  cases hstat : st.is_static with
  | false =>
    simp only [finishUpdate, hstat, if_false]
    constructor
    · exact matSub_matAdd_twice st.d_W (batchOuter gradients vecs)
    · exact npFancy_twice_delta st.d_vectors
        (ids.map (fun i => (i % (st.nV : Int)).toNat))
        (batchDot gradients (transposeM st.W))
  | true =>
    simp only [finishUpdate, hstat, if_true]
    constructor
    · exact matSub_matAdd_twice st.d_W (batchOuter gradients vecs)
    · exact (matSub_self_idem st.d_vectors).symm

end ThincEmbed
